import Mathlib

/-!
Verification development for the tiktok-archiver program
(`src/tiktok_archiver.py`).

The Python source is shallowly embedded:
* `Video` with its `__post_init__` normalization (`_clean_link`,
  `_clean_datetime`) becomes the structure `Video` together with the smart
  constructor `mkVideo`; the call to `datetime.datetime.strptime` with the
  fixed pattern `"%Y-%m-%d %H:%M:%S"` is modelled by `strptimeYmdHms`
  (CPython `_strptime` regexes for `%Y %m %d %H %M %S`, literal matching,
  whole-string consumption, plus the `datetime` constructor's range checks),
  and `datetime.isoformat()` by `isoformat`.
* `read_videos` becomes `read_videos` over an optional list of lines
  (`none` models a path that is not a file); the line loop is the fold
  `scanFold` of the per-line transition `scanStep`, with `Except` modelling
  the `ValueError` raised by `strptime` on a malformed timestamp.
* `discover_videos` becomes `discover_videos` over an `ArchiveFiles` record
  of four optional file contents.
* `download_videos` becomes `download_videos`: the external `subprocess.run`
  is an oracle `runner : List String → Except String CompletedProcess`
  (`.error` models an exception while launching the process, e.g.
  `FileNotFoundError`); `multiprocessing.dummy.Pool(threads).imap` is
  order-preserving and applies the function to each command exactly once, so
  its observable result stream is the in-order sequence of per-command
  results, consumed until the first raised exception.  The returned pair is
  (outcomes reported by the result loop, in report order — the k-th entry is
  printed with running counter k+1 — , escalated exception if any).
-/

/-! ### Python string helpers -/

/-- Remove every occurrence of the character `c`:
Python `s.replace(c, "")` for a one-character pattern. -/
def pyRemoveChar (c : Char) (s : String) : String :=
  String.mk (s.data.filter (fun a => a ≠ c))

/-- Characters stripped by Python `str.strip()` (ASCII whitespace),
also the characters matched by `\s` in the `_strptime` regex. -/
def isPySpace (c : Char) : Bool :=
  c = ' ' || c = '\t' || c = '\n' || c = '\r' || c = '\x0b' || c = '\x0c'

def pyStripChars (l : List Char) : List Char :=
  ((l.dropWhile isPySpace).reverse.dropWhile isPySpace).reverse

/-- Python `str.strip()`. -/
def pyStrip (s : String) : String :=
  String.mk (pyStripChars s.data)

/-- The part of `s` after its first `:`; Python `s.split(":", 1)[1]`
(total here; in the source it is only reached when `s` starts with
`"Date: "` or `"Video Link:"`, both of which contain a colon). -/
def afterColon : List Char → List Char
  | [] => []
  | c :: rest => if c = ':' then rest else afterColon rest

def pySplitColonTail (s : String) : String :=
  String.mk (afterColon s.data)

/-- The part of `s` before its first newline;
Python `s.split("\n", 1)[0]`. -/
def beforeNewline : List Char → List Char
  | [] => []
  | c :: rest => if c = '\n' then [] else c :: beforeNewline rest

def pySplitNlHead (s : String) : String :=
  String.mk (beforeNewline s.data)

/-- Python `s.startswith(pre)`. -/
def pyStartsWith (s pre : String) : Bool :=
  pre.data.isPrefixOf s.data

/-- Python truthiness of an optional string (`None` and `""` are falsy). -/
def truthy : Option String → Bool
  | none => false
  | some s => s ≠ ""

/-! ### `datetime.strptime(_, "%Y-%m-%d %H:%M:%S")` and `isoformat` -/

def digitVal (c : Char) : Nat := c.toNat - 48

/-- An ASCII digit, `\\d` of the `_strptime` regex. -/
def isDigitChar (c : Char) : Bool :=
  48 ≤ c.toNat && c.toNat ≤ 57

/-- `%Y` in `_strptime`: exactly four digit characters. -/
def parseY : List Char → Option (Nat × List Char)
  | a :: b :: c :: d :: rest =>
    if isDigitChar a && isDigitChar b && isDigitChar c && isDigitChar d then
      some (1000 * digitVal a + 100 * digitVal b + 10 * digitVal c + digitVal d, rest)
    else
      none
  | _ => none

/-- A two-digit-or-one-digit numeric field of `_strptime`
(`%m %d %H %M %S`): if two digit characters are next, the two-digit
alternative is taken and must lie in `[lo2, hi2]`; with a single digit
character the value must lie in `[lo1, hi1]`.  (When the two-digit value is
out of range, regex backtracking to the one-digit alternative always fails,
because the following character — a digit — can never match the literal
delimiter or whitespace that follows the field in this fixed format.) -/
def parseNum2or1 (lo2 hi2 lo1 hi1 : Nat) : List Char → Option (Nat × List Char)
  | c1 :: c2 :: rest =>
    if isDigitChar c1 then
      if isDigitChar c2 then
        let v := 10 * digitVal c1 + digitVal c2
        if lo2 ≤ v ∧ v ≤ hi2 then some (v, rest) else none
      else
        let v := digitVal c1
        if lo1 ≤ v ∧ v ≤ hi1 then some (v, c2 :: rest) else none
    else
      none
  | [c1] =>
    if isDigitChar c1 then
      let v := digitVal c1
      if lo1 ≤ v ∧ v ≤ hi1 then some (v, []) else none
    else
      none
  | [] => none

/-- A literal character of the format. -/
def parseLit (c : Char) : List Char → Option (List Char)
  | a :: rest => if a = c then some rest else none
  | [] => none

/-- Whitespace in the format matches `\s+` in `_strptime`. -/
def parseWs : List Char → Option (List Char)
  | a :: rest => if isPySpace a then some (rest.dropWhile isPySpace) else none
  | [] => none

def isLeap (y : Nat) : Bool :=
  (y % 4 = 0 && y % 100 ≠ 0) || y % 400 = 0

def daysInMonth (y m : Nat) : Nat :=
  if m = 2 then (if isLeap y then 29 else 28)
  else if m = 4 || m = 6 || m = 9 || m = 11 then 30
  else 31

/-- `datetime.datetime.strptime(s, "%Y-%m-%d %H:%M:%S")`, returning
`(year, month, day, hour, minute, second)`, or `none` where CPython raises
`ValueError`.  The final guard models the `datetime` constructor
(`MINYEAR ≤ year`, day valid for the month, seconds below 60 — the regex
for `%S` admits 60 and 61 but the constructor rejects them). -/
def strptimeYmdHms (s : String) : Option (Nat × Nat × Nat × Nat × Nat × Nat) :=
  (parseY s.data).bind fun yr =>
  (parseLit '-' yr.2).bind fun r2 =>
  (parseNum2or1 1 12 1 9 r2).bind fun mr =>
  (parseLit '-' mr.2).bind fun r4 =>
  (parseNum2or1 1 31 1 9 r4).bind fun dr =>
  (parseWs dr.2).bind fun r6 =>
  (parseNum2or1 0 23 0 9 r6).bind fun hr =>
  (parseLit ':' hr.2).bind fun r8 =>
  (parseNum2or1 0 59 0 9 r8).bind fun nr =>
  (parseLit ':' nr.2).bind fun r10 =>
  (parseNum2or1 0 61 0 9 r10).bind fun sr =>
  if sr.2 = [] then
    if 1 ≤ yr.1 ∧ dr.1 ≤ daysInMonth yr.1 mr.1 ∧ sr.1 ≤ 59 then
      some (yr.1, mr.1, dr.1, hr.1, nr.1, sr.1)
    else
      none
  else
    none

def pad2 (n : Nat) : List Char :=
  if n < 10 then ['0', Nat.digitChar n]
  else [Nat.digitChar (n / 10), Nat.digitChar (n % 10)]

def pad4 (n : Nat) : List Char :=
  if n < 10 then ['0', '0', '0', Nat.digitChar n]
  else if n < 100 then ['0', '0', Nat.digitChar (n / 10), Nat.digitChar (n % 10)]
  else if n < 1000 then
    ['0', Nat.digitChar (n / 100), Nat.digitChar (n / 10 % 10), Nat.digitChar (n % 10)]
  else
    [Nat.digitChar (n / 1000), Nat.digitChar (n / 100 % 10),
     Nat.digitChar (n / 10 % 10), Nat.digitChar (n % 10)]

/-- `datetime.isoformat()` of a timezone-naive datetime with zero
microseconds: `YYYY-MM-DDTHH:MM:SS`. -/
def isoformat (y mo d h mi s : Nat) : String :=
  String.mk (pad4 y ++ '-' :: pad2 mo ++ '-' :: pad2 d ++ 'T' :: pad2 h ++
    ':' :: pad2 mi ++ ':' :: pad2 s)

/-! ### `Video` -/

/-- `Video._clean_link`: `self.link.replace(" ", "").replace("\n", "")`. -/
def clean_link (s : String) : String :=
  pyRemoveChar '\n' (pyRemoveChar ' ' s)

/-- `Video._clean_datetime`:
`datetime.strptime(self.datetime.replace("\n", "").strip(), "%Y-%m-%d %H:%M:%S").isoformat()`,
`none` where it raises `ValueError`. -/
def clean_datetime (s : String) : Option String :=
  match strptimeYmdHms (pyStrip (pyRemoveChar '\n' s)) with
  | some (y, mo, d, h, mi, se) => some (isoformat y mo d h mi se)
  | none => none

structure Video where
  link : String
  datetime : String
deriving DecidableEq, Repr

/-- `Video(link=…, datetime=…)` with `__post_init__`: both fields are
normalized; a `ValueError` from `strptime` (the spec's
`MalformedRecordError`) aborts construction, carrying the offending raw
value. -/
def mkVideo (link datetime : String) : Except String Video :=
  match clean_datetime datetime with
  | some dt => .ok { link := clean_link link, datetime := dt }
  | none => .error datetime

/-! ### `read_videos` -/

/-- The loop state of `read_videos`: the two pending slots and the
accumulated list. -/
structure ScanState where
  date_time : Option String
  link : Option String
  videos : List Video
deriving DecidableEq, Repr

/-- One iteration of the `for line in path.readlines()` loop. -/
def scanStep (st : ScanState) (line : String) : Except String ScanState :=
  let st1 :=
    if pyStartsWith line "Date: " then
      { st with date_time := some (pySplitColonTail line) }
    else if pyStartsWith line "Video Link:" then
      { st with link := some (pySplitColonTail line) }
    else
      st
  if truthy st1.date_time && truthy st1.link then
    match mkVideo (st1.link.getD "") (st1.date_time.getD "") with
    | .ok v => .ok { date_time := none, link := none, videos := st1.videos ++ [v] }
    | .error e => .error e
  else
    .ok st1

def scanFold : ScanState → List String → Except String ScanState
  | st, [] => .ok st
  | st, l :: rest =>
    match scanStep st l with
    | .ok st1 => scanFold st1 rest
    | .error e => .error e

/-- `read_videos`: `none` models a path for which `file_path.is_file()` is
false (the early `return videos` with the still-empty list); otherwise the
file's lines are scanned. -/
def read_videos (content : Option (List String)) : Except String (List Video) :=
  match content with
  | none => .ok []
  | some lines => (scanFold ⟨none, none, []⟩ lines).map ScanState.videos

/-! ### `discover_videos` -/

structure ArchiveFiles where
  favouritesFile : Option (List String)
  likesFile : Option (List String)
  uploadsFile : Option (List String)
  historyFile : Option (List String)

structure ArchiveVideos where
  favourites : List Video
  likes : List Video
  uploads : List Video
  history : List Video
deriving DecidableEq, Repr

/-- `discover_videos`: one `read_videos` call per fixed location; an
exception from any call propagates. -/
def discover_videos (fs : ArchiveFiles) : Except String ArchiveVideos :=
  (read_videos fs.favouritesFile).bind fun f =>
  (read_videos fs.likesFile).bind fun l =>
  (read_videos fs.uploadsFile).bind fun u =>
  (read_videos fs.historyFile).bind fun h =>
  .ok ⟨f, l, u, h⟩

/-! ### Well-formed pair blocks (for the scanner-pairing property) -/

/-- One well-formed record block: a `Date: ` line and a `Video Link:` line
in either relative order (`true` = date first).  `d` is the raw text after
the prefix `"Date: "`, `l` the raw text after the prefix `"Video Link:"`. -/
def pairBlock : Bool × String × String → List String
  | (true, d, l) => ["Date: " ++ d, "Video Link:" ++ l]
  | (false, d, l) => ["Video Link:" ++ l, "Date: " ++ d]

/-- Well-formedness of a block: the timestamp (as stored in the pending
slot, i.e. with the space that follows `"Date:"`) parses, and the stored
link text is non-empty (Python-truthy). -/
@[reducible] def goodPair (p : Bool × String × String) : Prop :=
  (clean_datetime (" " ++ p.2.1)).isSome = true ∧ p.2.2 ≠ ""

/-- The `Video` the scanner emits for a well-formed block. -/
def expectedVideo (p : Bool × String × String) : Video :=
  ⟨clean_link p.2.2, (clean_datetime (" " ++ p.2.1)).getD ""⟩

/-! ### `download_videos` -/

/-- The result of `subprocess.run(cmd, capture_output=True, text=True)`
for a process that could be started (no `check=True` is passed, so a
non-zero exit does not raise). -/
structure CompletedProcess where
  args : List String
  returncode : Int
  stderr : String
deriving DecidableEq, Repr

/-- The per-fetch-attempt record of the spec (the information the result
loop extracts from each `CompletedProcess` and reports). -/
structure DownloadOutcome where
  video : Video
  succeeded : Bool
  errorSummary : Option String
deriving DecidableEq, Repr

/-- The `youtube-dl` command line built for one video. -/
def buildCommand (output : String) (v : Video) : List String :=
  ["youtube-dl", "--write-info-json", "--ignore-errors", "--output",
   output ++ "/%(id)s.%(ext)s", v.link]

/-- One fetch invocation plus the result-loop branch for it: the oracle
`runner` models `subprocess.run` (`.error e` models an exception raised
while launching, e.g. `FileNotFoundError`, which `download_videos` does not
catch).  On a started process the outcome is marked succeeded exactly when
`returncode == 0`, and otherwise carries
`result.stderr.split("\n", 1)[0]`. -/
def runOne (runner : List String → Except String CompletedProcess)
    (output : String) (v : Video) : Except String DownloadOutcome :=
  match runner (buildCommand output v) with
  | .error e => .error e
  | .ok r =>
    if r.returncode = 0 then .ok ⟨v, true, none⟩
    else .ok ⟨v, false, some (pySplitNlHead r.stderr)⟩

/-- `download_videos`: commands are built in input order;
`multiprocessing.dummy.Pool(threads).imap` (valid for `threads ≥ 1`)
applies `subprocess.run` to each command exactly once and yields results
in input order, so the observable stream of the result loop is the
in-order sequence of per-command results, consumed until the first raised
exception.  Returns (outcomes reported by the loop in report order — the
k-th entry is printed with running counter k+1 —, the escalated exception
if one aborted the loop).  `threads` only bounds concurrency; it does not
affect which outcomes are produced. -/
def download_videos (videos : List Video) (output : String) (threads : Nat)
    (runner : List String → Except String CompletedProcess) :
    List DownloadOutcome × Option String :=
  match videos with
  | [] => ([], none)
  | v :: rest =>
    match runOne runner output v with
    | .error e => ([], some e)
    | .ok o =>
      let tail := download_videos rest output threads runner
      (o :: tail.1, tail.2)

/-! ### Concrete fixtures used by witnesses and counterexamples -/

def vidA : Video := ⟨"https://a.example/", "2020-01-01T00:00:00"⟩

def vidB : Video := ⟨"https://b.example/", "2020-01-01T00:00:00"⟩

/-- An oracle where every process starts and exits 0. -/
def okRunner : List String → Except String CompletedProcess :=
  fun cmd => .ok ⟨cmd, 0, ""⟩

/-- An oracle where no process can be launched at all
(`subprocess.run` raises). -/
def launchFailRunner : List String → Except String CompletedProcess :=
  fun _ => .error "FileNotFoundError: youtube-dl"

/-- An oracle where only `vidA`'s fetch cannot be launched; every other
process starts and exits 0. -/
def mixedRunner : List String → Except String CompletedProcess :=
  fun cmd =>
    if cmd = buildCommand "out" vidA then .error "FileNotFoundError: youtube-dl"
    else .ok ⟨cmd, 0, ""⟩

/-- An oracle whose processes start and exit 3 with diagnostic output
`"boom\nmore"` on standard error. -/
def exit3Runner : List String → Except String CompletedProcess :=
  fun cmd => .ok ⟨cmd, 3, "boom\nmore"⟩

/-! ## Helper lemmas about the scanner -/

theorem startsWith_date_self (d : String) :
    pyStartsWith ("Date: " ++ d) "Date: " = true := by
  unfold pyStartsWith
  rw [String.data_append]
  simp [List.isPrefixOf_iff_prefix]

theorem startsWith_link_self (l : String) :
    pyStartsWith ("Video Link:" ++ l) "Video Link:" = true := by
  unfold pyStartsWith
  rw [String.data_append]
  simp [List.isPrefixOf_iff_prefix]

theorem startsWith_link_not_date (l : String) :
    pyStartsWith ("Video Link:" ++ l) "Date: " = false := by
  unfold pyStartsWith
  rw [String.data_append]
  rfl

theorem splitColonTail_date (d : String) :
    pySplitColonTail ("Date: " ++ d) = " " ++ d := rfl

theorem splitColonTail_link (l : String) :
    pySplitColonTail ("Video Link:" ++ l) = l := by
  unfold pySplitColonTail
  rw [String.data_append]
  rfl

theorem truthy_some (s : String) : truthy (some s) = true ↔ s ≠ "" := by
  simp [truthy]

theorem space_append_ne_empty (d : String) : (" " ++ d) ≠ "" := by
  intro h
  have h2 : (' ' :: d.data) = ([] : List Char) := congrArg String.data h
  exact List.cons_ne_nil _ _ h2

theorem scanStep_date_noLink (st : ScanState) (d : String) (h : st.link = none) :
    scanStep st ("Date: " ++ d) = .ok { st with date_time := some (" " ++ d) } := by
  unfold scanStep
  simp [startsWith_date_self, splitColonTail_date, h, truthy]

theorem scanStep_link_noDate (st : ScanState) (l : String) (h : st.date_time = none) :
    scanStep st ("Video Link:" ++ l) = .ok { st with link := some l } := by
  unfold scanStep
  simp [startsWith_link_not_date, startsWith_link_self, splitColonTail_link, h, truthy]

theorem scanStep_link_emit (st : ScanState) (ds l : String) (hst : st.date_time = some ds)
    (hds : ds ≠ "") (hl : l ≠ "") (v : Video) (hv : mkVideo l ds = .ok v) :
    scanStep st ("Video Link:" ++ l) = .ok ⟨none, none, st.videos ++ [v]⟩ := by
  unfold scanStep
  simp [startsWith_link_not_date, startsWith_link_self, splitColonTail_link, hst, truthy,
    hds, hl, hv]

theorem scanStep_link_emitError (st : ScanState) (ds l : String) (hst : st.date_time = some ds)
    (hds : ds ≠ "") (hl : l ≠ "") (e : String) (hv : mkVideo l ds = .error e) :
    scanStep st ("Video Link:" ++ l) = .error e := by
  unfold scanStep
  simp [startsWith_link_not_date, startsWith_link_self, splitColonTail_link, hst, truthy,
    hds, hl, hv]

theorem scanStep_date_emit (st : ScanState) (d ls : String) (hst : st.link = some ls)
    (hls : ls ≠ "") (v : Video) (hv : mkVideo ls (" " ++ d) = .ok v) :
    scanStep st ("Date: " ++ d) = .ok ⟨none, none, st.videos ++ [v]⟩ := by
  unfold scanStep
  simp [startsWith_date_self, splitColonTail_date, hst, truthy, space_append_ne_empty,
    hls, hv]

theorem scanFold_cons_ok (st st1 : ScanState) (x : String) (rest : List String)
    (h : scanStep st x = .ok st1) :
    scanFold st (x :: rest) = scanFold st1 rest := by
  simp only [scanFold, h]

theorem scanFold_cons_error (st : ScanState) (x : String) (rest : List String) (e : String)
    (h : scanStep st x = .error e) :
    scanFold st (x :: rest) = .error e := by
  unfold scanFold
  rw [h]

theorem scanFold_append (xs ys : List String) (st : ScanState) :
    scanFold st (xs ++ ys) = (scanFold st xs).bind fun st1 => scanFold st1 ys := by
  induction xs generalizing st with
  | nil => rfl
  | cons x xs ih =>
    cases h : scanStep st x with
    | ok st1 =>
      rw [List.cons_append, scanFold_cons_ok _ _ _ _ h, scanFold_cons_ok _ _ _ _ h, ih]
    | error e =>
      rw [List.cons_append, scanFold_cons_error _ _ _ _ h, scanFold_cons_error _ _ _ _ h]
      rfl

theorem scanFold_block (p : Bool × String × String) (acc : List Video) (hp : goodPair p) :
    scanFold ⟨none, none, acc⟩ (pairBlock p) = .ok ⟨none, none, acc ++ [expectedVideo p]⟩ := by
  obtain ⟨ord, d, l⟩ := p
  obtain ⟨hd, hl⟩ := hp
  obtain ⟨dt, hdt⟩ := Option.isSome_iff_exists.mp hd
  have hv : mkVideo l (" " ++ d) = .ok ⟨clean_link l, dt⟩ := by
    unfold mkVideo
    rw [hdt]
  have hexp : expectedVideo (ord, d, l) = ⟨clean_link l, dt⟩ := by
    unfold expectedVideo
    rw [hdt]
    rfl
  cases ord with
  | true =>
    rw [show pairBlock (true, d, l) = ["Date: " ++ d, "Video Link:" ++ l] from rfl,
      scanFold_cons_ok _ _ _ _ (scanStep_date_noLink ⟨none, none, acc⟩ d rfl),
      scanFold_cons_ok _ _ _ _
        (scanStep_link_emit _ (" " ++ d) l rfl (space_append_ne_empty d) hl _ hv),
      hexp]
    rfl
  | false =>
    rw [show pairBlock (false, d, l) = ["Video Link:" ++ l, "Date: " ++ d] from rfl,
      scanFold_cons_ok _ _ _ _ (scanStep_link_noDate ⟨none, none, acc⟩ l rfl),
      scanFold_cons_ok _ _ _ _ (scanStep_date_emit _ d l rfl hl _ hv),
      hexp]
    rfl

theorem scanFold_blocks (ps : List (Bool × String × String)) (acc : List Video)
    (hps : ∀ p ∈ ps, goodPair p) :
    scanFold ⟨none, none, acc⟩ ((ps.map pairBlock).flatten) =
      .ok ⟨none, none, acc ++ ps.map expectedVideo⟩ := by
  induction ps generalizing acc with
  | nil => simp [scanFold]
  | cons p ps ih =>
    rw [List.map_cons, List.flatten_cons, scanFold_append,
      scanFold_block p acc (hps p (by simp))]
    have hrest : ∀ q ∈ ps, goodPair q := fun q hq => hps q (by simp [hq])
    show (scanFold ⟨none, none, acc ++ [expectedVideo p]⟩ ((ps.map pairBlock).flatten)) = _
    rw [ih (acc ++ [expectedVideo p]) hrest]
    simp

/-! ## Claim C1: scanner pairing -/

/-- **C1**: for every input consisting of N well-formed Date/Link pair
blocks (each block's two lines in either relative order, a pair being
completed as soon as both slots are set since the last completion),
`read_videos` returns exactly N `Video` values, in file-appearance order
(the k-th emitted `Video` is built from the k-th block). -/
theorem claim_C1 (ps : List (Bool × String × String)) (hps : ∀ p ∈ ps, goodPair p) :
    read_videos (some ((ps.map pairBlock).flatten)) = .ok (ps.map expectedVideo) ∧
      (ps.map expectedVideo).length = ps.length := by
  constructor
  · simp only [read_videos]
    rw [scanFold_blocks ps [] hps]
    rfl
  · exact List.length_map ps expectedVideo

/-- Witness for C1 at the spec's own end-to-end example (second pair given
link-first to exercise the order-agnostic completion). -/
theorem claim_C1_witness :
    read_videos (some ["Date: 2020-08-12 02:16:22", "Video Link: https://example.com/v/1/",
        "Video Link: https://example.com/v/2/", "Date: 2020-08-13 10:00:00"]) =
      .ok [⟨"https://example.com/v/1/", "2020-08-12T02:16:22"⟩,
        ⟨"https://example.com/v/2/", "2020-08-13T10:00:00"⟩] := by
  have h := (claim_C1 [(true, "2020-08-12 02:16:22", " https://example.com/v/1/"),
    (false, "2020-08-13 10:00:00", " https://example.com/v/2/")] (by decide)).1
  exact h

/-! ## Claim C9: last-value-wins on a doubled `Date: ` line -/

/-- **C9**: when two `Date: ` lines occur before the next `Video Link:`
line, the second silently overwrites the pending timestamp slot: the
emitted `Video` carries the value of the last `Date: ` line seen, and the
earlier value is discarded (it appears nowhere in the output, which
contains exactly one `Video`). -/
theorem claim_C9 (d1 d2 l : String) (hd : (clean_datetime (" " ++ d2)).isSome = true)
    (hl : l ≠ "") :
    read_videos (some ["Date: " ++ d1, "Date: " ++ d2, "Video Link:" ++ l]) =
      .ok [⟨clean_link l, (clean_datetime (" " ++ d2)).getD ""⟩] := by
  obtain ⟨dt, hdt⟩ := Option.isSome_iff_exists.mp hd
  have hv : mkVideo l (" " ++ d2) = .ok ⟨clean_link l, dt⟩ := by
    unfold mkVideo
    rw [hdt]
  simp only [read_videos]
  rw [scanFold_cons_ok _ _ _ _ (scanStep_date_noLink ⟨none, none, []⟩ d1 rfl),
    scanFold_cons_ok _ _ _ _ (scanStep_date_noLink _ d2 rfl),
    scanFold_cons_ok _ _ _ _
      (scanStep_link_emit _ (" " ++ d2) l rfl (space_append_ne_empty d2) hl _ hv),
    hdt]
  rfl

/-- Witness for C9: the emitted video carries the second date,
`1999-01-01 00:00:00` is discarded. -/
theorem claim_C9_witness :
    read_videos (some ["Date: 1999-01-01 00:00:00", "Date: 2020-08-12 02:16:22",
        "Video Link: https://e/2"]) =
      .ok [⟨"https://e/2", "2020-08-12T02:16:22"⟩] := by
  have h := claim_C9 "1999-01-01 00:00:00" "2020-08-12 02:16:22" " https://e/2"
    (by decide) (by decide)
  exact h

/-! ## Claim C4: malformed timestamp in a completed pair -/

/-- **C4**: a completed Date/Link pair whose raw timestamp does not match
`YYYY-MM-DD HH:MM:SS` makes `Video` construction fail (the spec's
`MalformedRecordError`, carrying the offending raw value), and the scanner
propagates the error: its output is an error, not a sequence containing a
partial `Video`. -/
theorem claim_C4 :
    (∀ link dt, clean_datetime dt = none → mkVideo link dt = .error dt) ∧
    (∀ d l, clean_datetime (" " ++ d) = none → l ≠ "" →
      read_videos (some ["Date: " ++ d, "Video Link:" ++ l]) = .error (" " ++ d)) := by
  constructor
  · intro link dt h
    unfold mkVideo
    rw [h]
  · intro d l hd hl
    have he : mkVideo l (" " ++ d) = .error (" " ++ d) := by
      unfold mkVideo
      rw [hd]
    simp only [read_videos]
    rw [scanFold_cons_ok _ _ _ _ (scanStep_date_noLink ⟨none, none, []⟩ d rfl),
      scanFold_cons_error _ _ _ _
        (scanStep_link_emitError _ (" " ++ d) l rfl (space_append_ne_empty d) hl _ he)]
    rfl

/-- Witness for C4 at the spec's example timestamp `"not-a-date"`. -/
theorem claim_C4_witness :
    mkVideo "https://e/1" "not-a-date" = .error "not-a-date" ∧
    read_videos (some ["Date: not-a-date", "Video Link: https://e/1"]) =
      .error " not-a-date" := by
  constructor
  · exact claim_C4.1 "https://e/1" "not-a-date" (by decide)
  · exact claim_C4.2 "not-a-date" " https://e/1" (by decide) (by decide)

/-! ## Claim C6: missing file gives an empty slot, never an error -/

theorem discover_videos_ok_parts (fs : ArchiveFiles) (av : ArchiveVideos)
    (h : discover_videos fs = .ok av) :
    read_videos fs.favouritesFile = .ok av.favourites ∧
    read_videos fs.likesFile = .ok av.likes ∧
    read_videos fs.uploadsFile = .ok av.uploads ∧
    read_videos fs.historyFile = .ok av.history := by
  unfold discover_videos at h
  cases h1 : read_videos fs.favouritesFile with
  | error e => rw [h1] at h; simp [Except.bind] at h
  | ok f =>
    rw [h1] at h
    simp only [Except.bind] at h
    cases h2 : read_videos fs.likesFile with
    | error e => rw [h2] at h; simp [Except.bind] at h
    | ok l =>
      rw [h2] at h
      simp only [Except.bind] at h
      cases h3 : read_videos fs.uploadsFile with
      | error e => rw [h3] at h; simp [Except.bind] at h
      | ok u =>
        rw [h3] at h
        simp only [Except.bind] at h
        cases h4 : read_videos fs.historyFile with
        | error e => rw [h4] at h; simp [Except.bind] at h
        | ok hh =>
          rw [h4] at h
          simp only [Except.bind, Except.ok.injEq] at h
          rw [← h]
          exact ⟨rfl, rfl, rfl, rfl⟩

/-- **C6**: scanning a missing file returns the empty sequence, never an
error; consequently every slot of the `ArchiveVideos` built by
`discover_videos` is the empty sequence (never absent) when its source
file is missing. -/
theorem claim_C6 :
    read_videos none = .ok [] ∧
    ∀ fs av, discover_videos fs = .ok av →
      (fs.favouritesFile = none → av.favourites = []) ∧
      (fs.likesFile = none → av.likes = []) ∧
      (fs.uploadsFile = none → av.uploads = []) ∧
      (fs.historyFile = none → av.history = []) := by
  refine ⟨rfl, ?_⟩
  intro fs av h
  obtain ⟨h1, h2, h3, h4⟩ := discover_videos_ok_parts fs av h
  refine ⟨fun hf => ?_, fun hf => ?_, fun hf => ?_, fun hf => ?_⟩
  · rw [hf] at h1
    exact (Except.ok.inj h1).symm
  · rw [hf] at h2
    exact (Except.ok.inj h2).symm
  · rw [hf] at h3
    exact (Except.ok.inj h3).symm
  · rw [hf] at h4
    exact (Except.ok.inj h4).symm

/-- Witness for C6: an archive with all four files missing yields four
empty slots. -/
theorem claim_C6_witness :
    read_videos none = .ok [] ∧
    (ArchiveVideos.favourites ⟨[], [], [], []⟩ = [] ∧
      ArchiveVideos.history ⟨[], [], [], []⟩ = []) := by
  refine ⟨(claim_C6).1, ?_, ?_⟩
  · exact ((claim_C6).2 ⟨none, none, none, none⟩ ⟨[], [], [], []⟩ rfl).1 rfl
  · exact ((claim_C6).2 ⟨none, none, none, none⟩ ⟨[], [], [], []⟩ rfl).2.2.2 rfl

/-! ## Helper lemmas about the orchestrator -/

theorem runOne_ok_cases (runner : List String → Except String CompletedProcess)
    (output : String) (v : Video) (r : CompletedProcess)
    (h : runner (buildCommand output v) = .ok r) :
    ∃ o, runOne runner output v = .ok o ∧ o.video = v := by
  by_cases hz : r.returncode = 0
  · refine ⟨⟨v, true, none⟩, ?_, rfl⟩
    simp only [runOne, h]
    simp [hz]
  · refine ⟨⟨v, false, some (pySplitNlHead r.stderr)⟩, ?_, rfl⟩
    simp only [runOne, h]
    simp [hz]

theorem download_videos_all_ok (videos : List Video) (output : String) (threads : Nat)
    (runner : List String → Except String CompletedProcess)
    (h : ∀ v ∈ videos, ∃ r, runner (buildCommand output v) = .ok r) :
    (download_videos videos output threads runner).2 = none ∧
    (download_videos videos output threads runner).1.map DownloadOutcome.video = videos := by
  induction videos with
  | nil => exact ⟨rfl, rfl⟩
  | cons v rest ih =>
    obtain ⟨r, hr⟩ := h v (by simp)
    obtain ⟨o, ho, hov⟩ := runOne_ok_cases runner output v r hr
    have hrest := ih (fun u hu => h u (by simp [hu]))
    simp only [download_videos, ho]
    exact ⟨hrest.1, by simp [hov, hrest.2]⟩

/-! ## Claim C2: outcome completeness -/

/-- **C2 (amended)**: for every input list of N videos and every
concurrency limit `threads ≥ 1`, *provided every fetch process can be
launched* (the runner returns a `CompletedProcess` for each built command —
exits may still be non-zero), `download_videos` escalates no exception and
produces exactly N outcomes, one per input, and the multiset (indeed the
in-order list) of originating `Video` values equals the input. -/
theorem claim_C2 (videos : List Video) (output : String) (threads : Nat)
    (runner : List String → Except String CompletedProcess) (_hw : 1 ≤ threads)
    (h : ∀ v ∈ videos, ∃ r, runner (buildCommand output v) = .ok r) :
    (download_videos videos output threads runner).2 = none ∧
    (download_videos videos output threads runner).1.length = videos.length ∧
    (download_videos videos output threads runner).1.map DownloadOutcome.video = videos ∧
    (((download_videos videos output threads runner).1.map DownloadOutcome.video :
        List Video) : Multiset Video) = (videos : Multiset Video) := by
  obtain ⟨h2, hmap⟩ := download_videos_all_ok videos output threads runner h
  refine ⟨h2, ?_, hmap, by rw [hmap]⟩
  have := congrArg List.length hmap
  simpa using this

/-- Counterexample to C2 as stated (without the launch proviso): a batch of
one video whose fetch process cannot be launched produces zero outcomes,
not one — the exception escalates instead. -/
theorem claim_C2_counterexample :
    download_videos [vidA] "out" 1 launchFailRunner =
      ([], some "FileNotFoundError: youtube-dl") ∧
    ¬ (download_videos [vidA] "out" 1 launchFailRunner).1.length = 1 := by
  constructor
  · rfl
  · intro hc
    simp [download_videos, runOne, launchFailRunner] at hc

/-- Witness for C2 (amended) on a concrete two-video batch where every
process starts. -/
theorem claim_C2_witness :
    (download_videos [vidA, vidB] "out" 20 okRunner).2 = none ∧
    (download_videos [vidA, vidB] "out" 20 okRunner).1.length = 2 ∧
    (download_videos [vidA, vidB] "out" 20 okRunner).1.map DownloadOutcome.video =
      [vidA, vidB] ∧
    (((download_videos [vidA, vidB] "out" 20 okRunner).1.map DownloadOutcome.video :
        List Video) : Multiset Video) = ([vidA, vidB] : List Video) := by
  exact claim_C2 [vidA, vidB] "out" 20 okRunner (by decide)
    (fun v _ => ⟨⟨buildCommand "out" v, 0, ""⟩, rfl⟩)

/-! ## Claim C3: launch failure handling -/

/-- **C3 (amended)**: when a fetch invocation's external process cannot be
launched at all (the runner raises), the exception *escalates* out of the
orchestrator instead of being recorded as a local failed outcome with a
synthesized message: outcome reporting aborts at that invocation, so only
the invocations before it are reported and the later ones are not reported
at all. -/
theorem claim_C3 (vs1 : List Video) (v : Video) (vs2 : List Video) (output : String)
    (threads : Nat) (runner : List String → Except String CompletedProcess) (e : String)
    (h1 : ∀ u ∈ vs1, ∃ r, runner (buildCommand output u) = .ok r)
    (he : runner (buildCommand output v) = .error e) :
    (download_videos (vs1 ++ v :: vs2) output threads runner).2 = some e ∧
    (download_videos (vs1 ++ v :: vs2) output threads runner).1.length = vs1.length := by
  induction vs1 with
  | nil =>
    have hro : runOne runner output v = .error e := by
      simp only [runOne, he]
    simp only [List.nil_append, download_videos, hro]
    exact ⟨by trivial, by trivial⟩
  | cons u us ih =>
    obtain ⟨r, hr⟩ := h1 u (by simp)
    obtain ⟨o, ho, hov⟩ := runOne_ok_cases runner output u r hr
    have ihr := ih (fun w hw => h1 w (by simp [hw]))
    simp only [List.cons_append, download_videos, ho]
    exact ⟨ihr.1, by simp [ihr.2]⟩

/-- Counterexample to C3 as stated: in a two-video batch where the second
video's process cannot be launched, the resulting exception escalates
(second component `some …`), the failed invocation is *not* recorded as a
failed outcome, and only the one outcome before it is reported. -/
theorem claim_C3_counterexample :
    download_videos [vidB, vidA] "out" 2 mixedRunner =
      ([⟨vidB, true, none⟩], some "FileNotFoundError: youtube-dl") := by
  rfl

/-- Witness for C3 (amended): concrete batch `[vidB, vidA]` where `vidB`'s
process starts and `vidA`'s cannot be launched. -/
theorem claim_C3_witness :
    (download_videos [vidB, vidA] "out" 2 mixedRunner).2 =
      some "FileNotFoundError: youtube-dl" ∧
    (download_videos [vidB, vidA] "out" 2 mixedRunner).1.length = 1 := by
  have h := claim_C3 [vidB] vidA [] "out" 2 mixedRunner "FileNotFoundError: youtube-dl"
    (fun u hu => by
      rw [List.mem_singleton.mp hu]
      exact ⟨⟨buildCommand "out" vidB, 0, ""⟩, rfl⟩)
    rfl
  exact h

/-! ## Claim C7: success criterion and failure diagnostic -/

/-- **C7**: for every launched fetch invocation (the runner returns a
`CompletedProcess` `r`), the recorded outcome is marked succeeded if and
only if `r.returncode = 0`, and when it is marked failed its diagnostic is
exactly the first line of the captured standard-error stream. -/
theorem claim_C7 (runner : List String → Except String CompletedProcess)
    (output : String) (v : Video) (r : CompletedProcess)
    (h : runner (buildCommand output v) = .ok r) :
    ∃ o, runOne runner output v = .ok o ∧
      (o.succeeded = true ↔ r.returncode = 0) ∧
      (o.succeeded = false → o.errorSummary = some (pySplitNlHead r.stderr)) := by
  by_cases hz : r.returncode = 0
  · refine ⟨⟨v, true, none⟩, ?_, by simp [hz], by simp⟩
    simp only [runOne, h]
    simp [hz]
  · refine ⟨⟨v, false, some (pySplitNlHead r.stderr)⟩, ?_, by simp [hz], by simp⟩
    simp only [runOne, h]
    simp [hz]

/-- Witness for C7: a concrete process that exits 3 with standard error
`"boom\nmore"` gives a failed outcome whose diagnostic is the first line
`"boom"`. -/
theorem claim_C7_witness :
    runOne exit3Runner "out" vidA = .ok ⟨vidA, false, some "boom"⟩ ∧
    (∃ o, runOne exit3Runner "out" vidA = .ok o ∧
      (o.succeeded = true ↔ (3 : Int) = 0) ∧
      (o.succeeded = false → o.errorSummary = some (pySplitNlHead "boom\nmore"))) :=
  ⟨rfl, claim_C7 exit3Runner "out" vidA ⟨buildCommand "out" vidA, 3, "boom\nmore"⟩ rfl⟩

/-! ## Claim C10: outcomes are yielded and reported in input order -/

/-- **C10**: because results are consumed from an order-preserving `imap`,
whenever the batch runs to completion the outcome reported k-th (with
running counter k) originates from the k-th input `Video`: the in-order
list of originating videos equals the input list, pointwise at every
index. -/
theorem claim_C10 (videos : List Video) (output : String) (threads : Nat)
    (runner : List String → Except String CompletedProcess)
    (h : ∀ v ∈ videos, ∃ r, runner (buildCommand output v) = .ok r) :
    (download_videos videos output threads runner).1.map DownloadOutcome.video = videos ∧
    ∀ i (hi : i < (download_videos videos output threads runner).1.length)
      (hv : i < videos.length),
      (((download_videos videos output threads runner).1.get ⟨i, hi⟩).video) =
        videos.get ⟨i, hv⟩ := by
  have hmap := (download_videos_all_ok videos output threads runner h).2
  refine ⟨hmap, fun i hi hv => ?_⟩
  calc ((download_videos videos output threads runner).1.get ⟨i, hi⟩).video
      = ((download_videos videos output threads runner).1.map
          DownloadOutcome.video).get ⟨i, by simpa using hi⟩ := by simp
    _ = videos.get ⟨i, hv⟩ := by simp [hmap]

/-- Witness for C10: in a concrete two-video batch the first reported
outcome is for the first input and the second for the second. -/
theorem claim_C10_witness :
    (download_videos [vidA, vidB] "out" 3 okRunner).1.map DownloadOutcome.video =
      [vidA, vidB] ∧
    ((download_videos [vidA, vidB] "out" 3 okRunner).1.get ⟨0, by decide⟩).video = vidA ∧
    ((download_videos [vidA, vidB] "out" 3 okRunner).1.get ⟨1, by decide⟩).video = vidB := by
  have h := claim_C10 [vidA, vidB] "out" 3 okRunner
    (fun v _ => ⟨⟨buildCommand "out" v, 0, ""⟩, rfl⟩)
  exact ⟨h.1, h.2 0 (by decide) (by decide), h.2 1 (by decide) (by decide)⟩

/-! ## Claim C8: whitespace in a normalized link -/

/-- **C8 (amended)**: after normalization the link field of a successfully
constructed `Video` contains no space character and no newline.  (Other
whitespace, such as a tab, is *not* removed — see the counterexample.) -/
theorem claim_C8 (link dt : String) (v : Video) (h : mkVideo link dt = .ok v) :
    ∀ c ∈ v.link.data, c ≠ ' ' ∧ c ≠ '\n' := by
  have hv : v.link = clean_link link := by
    unfold mkVideo at h
    cases hcd : clean_datetime dt with
    | none =>
      rw [hcd] at h
      exact absurd h (by simp)
    | some d2 =>
      rw [hcd] at h
      have := Except.ok.inj h
      rw [← this]
  intro c hc
  rw [hv] at hc
  unfold clean_link pyRemoveChar at hc
  have hc2 : c ∈ (link.data.filter (fun a => a ≠ ' ')).filter (fun a => a ≠ '\n') := hc
  rw [List.mem_filter] at hc2
  obtain ⟨hc3, hnl⟩ := hc2
  rw [List.mem_filter] at hc3
  obtain ⟨_, hsp⟩ := hc3
  constructor
  · simpa using hsp
  · simpa using hnl

/-- Counterexample to C8 as stated: this `Video` is successfully
constructed, yet after normalization its link still contains a tab, which
is a whitespace character. -/
theorem claim_C8_counterexample :
    mkVideo "https://a\t.example/" "2020-08-12 02:16:22" =
      .ok ⟨"https://a\t.example/", "2020-08-12T02:16:22"⟩ ∧
    '\t' ∈ ("https://a\t.example/").data ∧ '\t'.isWhitespace = true := by
  refine ⟨rfl, ?_, rfl⟩
  decide

/-- Witness for C8 (amended): in the constructed video for the raw link
`"ht tp\n://e"` the normalized link is `"http://e"`, and e.g. its first
character is neither a space nor a newline. -/
theorem claim_C8_witness :
    mkVideo "ht tp\n://e" "2020-08-12 02:16:22" =
      .ok ⟨"http://e", "2020-08-12T02:16:22"⟩ ∧
    ('h' ≠ ' ' ∧ 'h' ≠ '\n') := by
  refine ⟨rfl, ?_⟩
  exact claim_C8 "ht tp\n://e" "2020-08-12 02:16:22"
    ⟨"http://e", "2020-08-12T02:16:22"⟩ rfl 'h' (by decide)

/-! ## Helper lemmas for normalization (claim C5) -/

theorem isDigitChar_bounds {c : Char} (h : isDigitChar c = true) :
    48 ≤ c.toNat ∧ c.toNat ≤ 57 := by
  unfold isDigitChar at h
  simpa using h

theorem digitVal_le_of_digit {c : Char} (h : isDigitChar c = true) : digitVal c ≤ 9 := by
  obtain ⟨h1, h2⟩ := isDigitChar_bounds h
  unfold digitVal
  omega

theorem digit_ne_nl {c : Char} (h : isDigitChar c = true) : c ≠ '\n' := by
  intro he
  subst he
  exact absurd h (by decide)

theorem digit_not_pySpace {c : Char} (h : isDigitChar c = true) : isPySpace c = false := by
  obtain ⟨h1, _⟩ := isDigitChar_bounds h
  cases hb : isPySpace c with
  | false => rfl
  | true =>
    exfalso
    simp only [isPySpace, Bool.or_eq_true, decide_eq_true_eq] at hb
    rcases hb with ((((rfl | rfl) | rfl) | rfl) | rfl) | rfl <;> exact absurd h1 (by decide)

theorem digitChar_spec (n : Nat) (h : n ≤ 9) :
    isDigitChar (Nat.digitChar n) = true ∧ digitVal (Nat.digitChar n) = n := by
  interval_cases n <;> exact ⟨by decide, by decide⟩

theorem pad2_spec (n : Nat) (h : n ≤ 99) :
    ∃ a b, pad2 n = [a, b] ∧ isDigitChar a = true ∧ isDigitChar b = true ∧
      10 * digitVal a + digitVal b = n := by
  unfold pad2
  by_cases h10 : n < 10
  · rw [if_pos h10]
    obtain ⟨hd, hv⟩ := digitChar_spec n (by omega)
    refine ⟨'0', Nat.digitChar n, rfl, by decide, hd, ?_⟩
    have h0 : digitVal '0' = 0 := by decide
    rw [h0, hv]
    omega
  · rw [if_neg h10]
    obtain ⟨hd1, hv1⟩ := digitChar_spec (n / 10) (by omega)
    obtain ⟨hd2, hv2⟩ := digitChar_spec (n % 10) (by omega)
    refine ⟨_, _, rfl, hd1, hd2, ?_⟩
    rw [hv1, hv2]
    omega

theorem pad4_spec (n : Nat) (h : n ≤ 9999) :
    ∃ a b c d, pad4 n = [a, b, c, d] ∧ isDigitChar a = true ∧ isDigitChar b = true ∧
      isDigitChar c = true ∧ isDigitChar d = true ∧
      1000 * digitVal a + 100 * digitVal b + 10 * digitVal c + digitVal d = n := by
  unfold pad4
  by_cases h10 : n < 10
  · rw [if_pos h10]
    obtain ⟨hd, hv⟩ := digitChar_spec n (by omega)
    refine ⟨'0', '0', '0', Nat.digitChar n, rfl, by decide, by decide, by decide, hd, ?_⟩
    have h0 : digitVal '0' = 0 := by decide
    rw [h0, hv]
    omega
  · rw [if_neg h10]
    by_cases h100 : n < 100
    · rw [if_pos h100]
      obtain ⟨hd1, hv1⟩ := digitChar_spec (n / 10) (by omega)
      obtain ⟨hd2, hv2⟩ := digitChar_spec (n % 10) (by omega)
      refine ⟨'0', '0', _, _, rfl, by decide, by decide, hd1, hd2, ?_⟩
      have h0 : digitVal '0' = 0 := by decide
      rw [h0, hv1, hv2]
      omega
    · rw [if_neg h100]
      by_cases h1000 : n < 1000
      · rw [if_pos h1000]
        obtain ⟨hd1, hv1⟩ := digitChar_spec (n / 100) (by omega)
        obtain ⟨hd2, hv2⟩ := digitChar_spec (n / 10 % 10) (by omega)
        obtain ⟨hd3, hv3⟩ := digitChar_spec (n % 10) (by omega)
        refine ⟨'0', _, _, _, rfl, by decide, hd1, hd2, hd3, ?_⟩
        have h0 : digitVal '0' = 0 := by decide
        rw [h0, hv1, hv2, hv3]
        omega
      · rw [if_neg h1000]
        obtain ⟨hd1, hv1⟩ := digitChar_spec (n / 1000) (by omega)
        obtain ⟨hd2, hv2⟩ := digitChar_spec (n / 100 % 10) (by omega)
        obtain ⟨hd3, hv3⟩ := digitChar_spec (n / 10 % 10) (by omega)
        obtain ⟨hd4, hv4⟩ := digitChar_spec (n % 10) (by omega)
        refine ⟨_, _, _, _, rfl, hd1, hd2, hd3, hd4, ?_⟩
        rw [hv1, hv2, hv3, hv4]
        omega

theorem parseY_pad4 (n : Nat) (h : n ≤ 9999) (rest : List Char) :
    parseY (pad4 n ++ rest) = some (n, rest) := by
  obtain ⟨a, b, c, d, hpad, ha, hb, hc, hd, hval⟩ := pad4_spec n h
  rw [hpad]
  show parseY (a :: b :: c :: d :: rest) = some (n, rest)
  simp [parseY, ha, hb, hc, hd, hval]

theorem parseNum2or1_pad2 (lo2 hi2 lo1 hi1 n : Nat) (h99 : n ≤ 99) (hlo : lo2 ≤ n)
    (hhi : n ≤ hi2) (rest : List Char) :
    parseNum2or1 lo2 hi2 lo1 hi1 (pad2 n ++ rest) = some (n, rest) := by
  obtain ⟨a, b, hpad, ha, hb, hval⟩ := pad2_spec n h99
  rw [hpad]
  show parseNum2or1 lo2 hi2 lo1 hi1 (a :: b :: rest) = some (n, rest)
  simp [parseNum2or1, ha, hb, hval, hlo, hhi]

theorem parseLit_self (c : Char) (rest : List Char) : parseLit c (c :: rest) = some rest := by
  simp [parseLit]

theorem parseWs_T (rest : List Char) : parseWs ('T' :: rest) = none := rfl

theorem strptime_iso_none (y mo d h mi s : Nat) (hy : y ≤ 9999) (hmo1 : 1 ≤ mo)
    (hmo : mo ≤ 12) (hd1 : 1 ≤ d) (hd : d ≤ 31) :
    strptimeYmdHms (isoformat y mo d h mi s) = none := by
  unfold strptimeYmdHms
  have hdata : (isoformat y mo d h mi s).data =
      pad4 y ++ '-' :: pad2 mo ++ '-' :: pad2 d ++ 'T' :: pad2 h ++
        ':' :: pad2 mi ++ ':' :: pad2 s := rfl
  rw [hdata]
  simp only [List.append_assoc, List.cons_append]
  simp only [parseY_pad4 y hy, parseLit_self,
    parseNum2or1_pad2 1 12 1 9 mo (by omega) hmo1 hmo,
    parseNum2or1_pad2 1 31 1 9 d (by omega) hd1 hd,
    parseWs_T, Option.some_bind, Option.none_bind]

theorem pad2_all_digit (n : Nat) (hn : n ≤ 99) : ∀ x ∈ pad2 n, isDigitChar x = true := by
  obtain ⟨a, b, hpad, ha, hb, _⟩ := pad2_spec n hn
  rw [hpad]
  intro x hx
  simp only [List.mem_cons, List.not_mem_nil, or_false] at hx
  rcases hx with rfl | rfl
  exacts [ha, hb]

theorem pad4_all_digit (n : Nat) (hn : n ≤ 9999) : ∀ x ∈ pad4 n, isDigitChar x = true := by
  obtain ⟨a, b, c, d, hpad, ha, hb, hc, hd, _⟩ := pad4_spec n hn
  rw [hpad]
  intro x hx
  simp only [List.mem_cons, List.not_mem_nil, or_false] at hx
  rcases hx with rfl | rfl | rfl | rfl
  exacts [ha, hb, hc, hd]

theorem iso_chars (y mo d h mi s : Nat) (hy : y ≤ 9999) (hmo : mo ≤ 99) (hd : d ≤ 99)
    (hh : h ≤ 99) (hmi : mi ≤ 99) (hs : s ≤ 99) :
    ∀ c ∈ (isoformat y mo d h mi s).data,
      isDigitChar c = true ∨ c = '-' ∨ c = 'T' ∨ c = ':' := by
  intro c hc
  have hdata : (isoformat y mo d h mi s).data =
      pad4 y ++ '-' :: pad2 mo ++ '-' :: pad2 d ++ 'T' :: pad2 h ++
        ':' :: pad2 mi ++ ':' :: pad2 s := rfl
  rw [hdata] at hc
  simp only [List.append_assoc, List.cons_append, List.mem_append, List.mem_cons] at hc
  rcases hc with hc | rfl | hc | rfl | hc | rfl | hc | rfl | hc | rfl | hc
  · exact Or.inl (pad4_all_digit y hy c hc)
  · exact Or.inr (Or.inl rfl)
  · exact Or.inl (pad2_all_digit mo hmo c hc)
  · exact Or.inr (Or.inl rfl)
  · exact Or.inl (pad2_all_digit d hd c hc)
  · exact Or.inr (Or.inr (Or.inl rfl))
  · exact Or.inl (pad2_all_digit h hh c hc)
  · exact Or.inr (Or.inr (Or.inr rfl))
  · exact Or.inl (pad2_all_digit mi hmi c hc)
  · exact Or.inr (Or.inr (Or.inr rfl))
  · exact Or.inl (pad2_all_digit s hs c hc)

theorem dropWhile_eq_self_of_all (p : Char → Bool) (L : List Char)
    (h : ∀ c ∈ L, p c = false) : L.dropWhile p = L := by
  cases L with
  | nil => rfl
  | cons a l =>
    rw [List.dropWhile_cons, h a (by simp)]
    simp

/-- Removing newlines and stripping leaves an `isoformat` result
unchanged: it consists of digits, `-`, `T` and `:` only. -/
theorem clean_of_iso (y mo d h mi s : Nat) (hy : y ≤ 9999) (hmo : mo ≤ 99) (hd : d ≤ 99)
    (hh : h ≤ 99) (hmi : mi ≤ 99) (hs : s ≤ 99) :
    pyStrip (pyRemoveChar '\n' (isoformat y mo d h mi s)) = isoformat y mo d h mi s := by
  have hall := iso_chars y mo d h mi s hy hmo hd hh hmi hs
  have hne : ∀ c ∈ (isoformat y mo d h mi s).data, (decide (c ≠ '\n')) = true := by
    intro c hc
    apply decide_eq_true
    rcases hall c hc with hdig | rfl | rfl | rfl
    · exact digit_ne_nl hdig
    · decide
    · decide
    · decide
  have hns : ∀ c ∈ (isoformat y mo d h mi s).data, isPySpace c = false := by
    intro c hc
    rcases hall c hc with hdig | rfl | rfl | rfl
    · exact digit_not_pySpace hdig
    · decide
    · decide
    · decide
  have h1 : pyRemoveChar '\n' (isoformat y mo d h mi s) = isoformat y mo d h mi s := by
    unfold pyRemoveChar
    have hf : (isoformat y mo d h mi s).data.filter (fun a => a ≠ '\n') =
        (isoformat y mo d h mi s).data := List.filter_eq_self.mpr hne
    rw [hf]
  rw [h1]
  unfold pyStrip pyStripChars
  rw [dropWhile_eq_self_of_all _ _ hns,
    dropWhile_eq_self_of_all _ _ (fun c hc => hns c (List.mem_reverse.mp hc)),
    List.reverse_reverse]

theorem clean_datetime_iso_none (y mo d h mi s : Nat) (hy : y ≤ 9999) (hmo1 : 1 ≤ mo)
    (hmo : mo ≤ 12) (hd1 : 1 ≤ d) (hd : d ≤ 31) (hh : h ≤ 99) (hmi : mi ≤ 99)
    (hs : s ≤ 99) :
    clean_datetime (isoformat y mo d h mi s) = none := by
  unfold clean_datetime
  rw [clean_of_iso y mo d h mi s hy (by omega) (by omega) hh hmi hs,
    strptime_iso_none y mo d h mi s hy hmo1 hmo hd1 hd]

theorem parseY_bounds (L : List Char) (p : Nat × List Char) (h : parseY L = some p) :
    p.1 ≤ 9999 := by
  obtain ⟨pv, pr⟩ := p
  cases L with
  | nil => simp [parseY] at h
  | cons a L1 =>
    cases L1 with
    | nil => simp [parseY] at h
    | cons b L2 =>
      cases L2 with
      | nil => simp [parseY] at h
      | cons c L3 =>
        cases L3 with
        | nil => simp [parseY] at h
        | cons d rest =>
          simp only [parseY] at h
          by_cases hcond :
              (isDigitChar a && isDigitChar b && isDigitChar c && isDigitChar d) = true
          · rw [if_pos hcond] at h
            simp only [Option.some.injEq, Prod.mk.injEq] at h
            obtain ⟨hval, _⟩ := h
            simp only [Bool.and_eq_true] at hcond
            obtain ⟨⟨⟨ha, hb⟩, hc⟩, hd⟩ := hcond
            have ba := digitVal_le_of_digit ha
            have bb := digitVal_le_of_digit hb
            have bc := digitVal_le_of_digit hc
            have bd := digitVal_le_of_digit hd
            show pv ≤ 9999
            omega
          · rw [if_neg hcond] at h
            simp at h

theorem parseNum2or1_bounds (lo2 hi2 lo1 hi1 : Nat) (L : List Char) (p : Nat × List Char)
    (h : parseNum2or1 lo2 hi2 lo1 hi1 L = some p) :
    (lo2 ≤ p.1 ∧ p.1 ≤ hi2) ∨ (lo1 ≤ p.1 ∧ p.1 ≤ hi1) := by
  obtain ⟨pv, pr⟩ := p
  cases L with
  | nil => simp [parseNum2or1] at h
  | cons c1 L1 =>
    cases L1 with
    | nil =>
      simp only [parseNum2or1] at h
      by_cases h1 : isDigitChar c1 = true
      · rw [if_pos h1] at h
        by_cases h2 : (lo1 ≤ digitVal c1 ∧ digitVal c1 ≤ hi1)
        · rw [if_pos h2] at h
          simp only [Option.some.injEq, Prod.mk.injEq] at h
          obtain ⟨hval, _⟩ := h
          show lo2 ≤ pv ∧ pv ≤ hi2 ∨ lo1 ≤ pv ∧ pv ≤ hi1
          rw [← hval]
          exact Or.inr h2
        · rw [if_neg h2] at h
          simp at h
      · rw [if_neg h1] at h
        simp at h
    | cons c2 L2 =>
      simp only [parseNum2or1] at h
      by_cases h1 : isDigitChar c1 = true
      · rw [if_pos h1] at h
        by_cases h2 : isDigitChar c2 = true
        · rw [if_pos h2] at h
          by_cases h3 : (lo2 ≤ 10 * digitVal c1 + digitVal c2 ∧
              10 * digitVal c1 + digitVal c2 ≤ hi2)
          · rw [if_pos h3] at h
            simp only [Option.some.injEq, Prod.mk.injEq] at h
            obtain ⟨hval, _⟩ := h
            show lo2 ≤ pv ∧ pv ≤ hi2 ∨ lo1 ≤ pv ∧ pv ≤ hi1
            rw [← hval]
            exact Or.inl h3
          · rw [if_neg h3] at h
            simp at h
        · rw [if_neg h2] at h
          by_cases h4 : (lo1 ≤ digitVal c1 ∧ digitVal c1 ≤ hi1)
          · rw [if_pos h4] at h
            simp only [Option.some.injEq, Prod.mk.injEq] at h
            obtain ⟨hval, _⟩ := h
            show lo2 ≤ pv ∧ pv ≤ hi2 ∨ lo1 ≤ pv ∧ pv ≤ hi1
            rw [← hval]
            exact Or.inr h4
          · rw [if_neg h4] at h
            simp at h
      · rw [if_neg h1] at h
        simp at h

theorem strptime_ok_bounds (str : String) (y mo d h mi se : Nat)
    (hp : strptimeYmdHms str = some (y, mo, d, h, mi, se)) :
    1 ≤ y ∧ y ≤ 9999 ∧ 1 ≤ mo ∧ mo ≤ 12 ∧ 1 ≤ d ∧ d ≤ 31 ∧ h ≤ 99 ∧ mi ≤ 99 ∧
      se ≤ 99 := by
  unfold strptimeYmdHms at hp
  simp only [Option.bind_eq_some] at hp
  obtain ⟨yr, hY, r2, hL1, mr, hM, r4, hL2, dr, hD, r6, hW, hrr, hH, r8, hL3, nr, hMn,
    r10, hL4, sr, hS, hfin⟩ := hp
  by_cases hnil : sr.2 = []
  · rw [if_pos hnil] at hfin
    by_cases hcond : (1 ≤ yr.1 ∧ dr.1 ≤ daysInMonth yr.1 mr.1 ∧ sr.1 ≤ 59)
    · rw [if_pos hcond] at hfin
      have hYb := parseY_bounds _ _ hY
      have hMb := parseNum2or1_bounds 1 12 1 9 _ _ hM
      have hDb := parseNum2or1_bounds 1 31 1 9 _ _ hD
      have hHb := parseNum2or1_bounds 0 23 0 9 _ _ hH
      have hMnb := parseNum2or1_bounds 0 59 0 9 _ _ hMn
      obtain ⟨hc1, hc2, hc3⟩ := hcond
      have htup := Option.some.inj hfin
      simp only [Prod.mk.injEq] at htup
      obtain ⟨e1, e2, e3, e4, e5, e6⟩ := htup
      rw [← e1, ← e2, ← e3, ← e4, ← e5, ← e6]
      rcases hMb with ⟨m1, m2⟩ | ⟨m1, m2⟩ <;>
        rcases hDb with ⟨d1, d2⟩ | ⟨d1, d2⟩ <;>
          rcases hHb with ⟨q1, q2⟩ | ⟨q1, q2⟩ <;>
            rcases hMnb with ⟨n1, n2⟩ | ⟨n1, n2⟩ <;>
              refine ⟨hc1, hYb, ?_⟩ <;> omega
    · rw [if_neg hcond] at hfin
      simp at hfin
  · rw [if_neg hnil] at hfin
    simp at hfin

theorem clean_datetime_some_elim (x yv : String) (h : clean_datetime x = some yv) :
    ∃ y mo d hh mi se,
      strptimeYmdHms (pyStrip (pyRemoveChar '\n' x)) = some (y, mo, d, hh, mi, se) ∧
      yv = isoformat y mo d hh mi se := by
  unfold clean_datetime at h
  cases hp : strptimeYmdHms (pyStrip (pyRemoveChar '\n' x)) with
  | none =>
    rw [hp] at h
    exact absurd h (by simp)
  | some t =>
    obtain ⟨y, mo, d, hh, mi, se⟩ := t
    rw [hp] at h
    exact ⟨y, mo, d, hh, mi, se, rfl, (Option.some.inj h).symm⟩

/-! ## Claim C5: normalization idempotence -/

/-- **C5 (amended)**: link normalization is idempotent
(`clean_link (clean_link x) = clean_link x` for every string), but
timestamp normalization is *not*: whenever it succeeds, its output is in
canonical ISO form with a `T` separator, which the fixed parse pattern
(requiring a space) always rejects, so re-normalizing a normalized
timestamp always fails. -/
theorem claim_C5 :
    (∀ x, clean_link (clean_link x) = clean_link x) ∧
    (∀ x y, clean_datetime x = some y → clean_datetime y = none) := by
  constructor
  · intro x
    show String.mk ((((x.data.filter (fun a => a ≠ ' ')).filter
        (fun a => a ≠ '\n')).filter (fun a => a ≠ ' ')).filter (fun a => a ≠ '\n')) =
      String.mk ((x.data.filter (fun a => a ≠ ' ')).filter (fun a => a ≠ '\n'))
    refine congrArg String.mk ?_
    simp only [List.filter_filter]
    refine List.filter_congr ?_
    intro a _
    cases hs : (decide (a ≠ ' ')) <;> cases hn : (decide (a ≠ '\n')) <;> simp [hs, hn]
  · intro x yv hxy
    obtain ⟨y, mo, d, hh, mi, se, hp, hiso⟩ := clean_datetime_some_elim x yv hxy
    obtain ⟨b1, b2, b3, b4, b5, b6, b7, b8, b9⟩ := strptime_ok_bounds _ _ _ _ _ _ _ hp
    rw [hiso]
    exact clean_datetime_iso_none y mo d hh mi se b2 b3 b4 b5 b6 b7 b8 b9

/-- Counterexample to C5 as stated: normalizing the timestamp
`"2020-08-12 02:16:22"` succeeds and yields `"2020-08-12T02:16:22"`, but
normalizing that result again fails (`T` does not match the pattern's
space), so `normalize (normalize x) ≠ normalize x`. -/
theorem claim_C5_counterexample :
    clean_datetime "2020-08-12 02:16:22" = some "2020-08-12T02:16:22" ∧
    clean_datetime "2020-08-12T02:16:22" = none := ⟨rfl, rfl⟩

/-- Witness for C5 (amended): link idempotence at a concrete link, and the
failure of re-normalization at the spec's example timestamp. -/
theorem claim_C5_witness :
    clean_link (clean_link "https://e x/\n1") = clean_link "https://e x/\n1" ∧
    clean_datetime "2020-08-12T02:16:22" = none := by
  refine ⟨claim_C5.1 "https://e x/\n1", ?_⟩
  exact claim_C5.2 "2020-08-12 02:16:22" "2020-08-12T02:16:22" rfl
